import Mathlib

/-!
# Loan engine: CSV ingestion and upload-URL issuance

A shallow embedding of the two request handlers of the repository,
`backend/src/processCsv.js` (`handler`, `triggerWebhook`,
`testDatabaseConnection`) and `backend/src/getUploadUrl.js` (`getUploadUrl`).

The handlers are sequential programs over external services (PostgreSQL, S3,
an HTTPS endpoint).  Each service is an explicit parameter of the embedding:
what it answers is read from an environment record, what the handler asks of it
is appended to a trace of effects, and the `users` table is threaded through as
a list of records.  `console.log` / `console.error` calls are not modelled.
-/

namespace LoanEngine

/-! ## JavaScript values -/

/-- A thrown JavaScript error value, identified by its message. -/
structure JsError where
  message : String
  deriving DecidableEq, Repr

/-- The values of the JavaScript Number type: NaN, negative zero, the finite
values (`fin 0` is positive zero; every finite double is a rational) and the two
infinities. -/
inductive JsNumber where
  | nan
  | negZero
  | fin (q : ℚ)
  | inf (negative : Bool)
  deriving DecidableEq

/-- ToBoolean on a Number: false exactly for NaN, +0 and -0. -/
def JsNumber.toBoolean : JsNumber → Bool
  | .nan => false
  | .negZero => false
  | .fin q => decide (q ≠ 0)
  | .inf _ => true

/-- The expression `x || 0` for a Number `x`. -/
def JsNumber.orZero (x : JsNumber) : JsNumber :=
  if x.toBoolean then x else .fin 0

/-- ToBoolean on a property that is either absent (`undefined`) or a string:
false exactly for `undefined` and the empty string. -/
def truthy : Option String → Bool
  | none => false
  | some s => s != ""

/-- The expression `x || null` for an optional string property `x`. -/
def orNull (x : Option String) : Option String :=
  if truthy x then x else none

/-- The expression `x || d` for an optional string property `x` and a string `d`. -/
def orDefault (x : Option String) (d : String) : String :=
  match x with
  | some s => if truthy (some s) then s else d
  | none => d

/-- `Number(x)` for an optional string property: `Number(undefined)` is NaN, and
a string goes through the built-in StringToNumber conversion, which is a
parameter of the embedding. -/
def toNumber (stringToNumber : String → JsNumber) : Option String → JsNumber
  | none => .nan
  | some s => stringToNumber s

/-! ## Data model -/

/-- The properties of a parsed CSV row that the handler reads.  `csv-parser`
yields string values; a column that the file does not have is `none`. -/
structure CsvRow where
  user_id : Option String := none
  name : Option String := none
  email : Option String := none
  monthly_income : Option String := none
  credit_score : Option String := none
  employment_status : Option String := none
  age : Option String := none
  deriving DecidableEq

/-- A record of the `users` table; also the seven values `$1 .. $7` of the
upsert statement (the row proposed for insertion, `EXCLUDED` in the SQL text). -/
structure UserRecord where
  user_id : Option String
  name : String
  email : String
  monthly_income : JsNumber
  credit_score : JsNumber
  employment_status : Option String
  age : JsNumber
  deriving DecidableEq

/-- The statements the handlers send with `db.query`. -/
inductive Statement where
  | selectNow
  | upsert (values : UserRecord)
  deriving DecidableEq

/-- The object `u` returned by `new URL(url)`, with the getters the source and
the claims refer to.  `port` is the empty string when the URL names no port. -/
structure URL where
  protocol : String
  hostname : String
  port : String
  pathname : String
  search : String
  deriving DecidableEq, Repr

/-- A header value: a string or a number. -/
inductive HeaderValue where
  | str (s : String)
  | num (n : Nat)
  deriving DecidableEq, Repr

/-- The `options` object handed to `https.request`.  `port` is `none` when the
object has no `port` key. -/
structure RequestOptions where
  hostname : String
  port : Option String
  path : String
  method : String
  headers : List (String × HeaderValue)
  deriving DecidableEq, Repr

/-- What a handler asks of the outside world, in the order it asks. -/
inductive Effect where
  | dbConnect
  | dbQuery (statement : Statement)
  | dbEnd
  | s3GetObject (bucket key : String)
  | httpsRequest (options : RequestOptions) (body : String)
  deriving DecidableEq

/-- The `users` table together with the effects issued so far. -/
structure World where
  users : List UserRecord
  trace : List Effect
  deriving DecidableEq

/-- Append one effect to the trace. -/
def World.log (w : World) (e : Effect) : World :=
  { w with trace := w.trace ++ [e] }

/-- A JSON value, as far as the handlers build one. -/
inductive Json where
  | str (s : String)
  | num (n : Nat)
  deriving DecidableEq, Repr

/-- A response body: a plain string, or the text `JSON.stringify` makes of an
object literal, kept as the list of the object's properties in source order. -/
inductive Body where
  | text (s : String)
  | json (properties : List (String × Json))
  deriving DecidableEq, Repr

/-- The object a handler returns.  `headers` is `none` when the object literal
has no `headers` key. -/
structure Response where
  statusCode : Nat
  headers : Option (List (String × String))
  body : Body
  deriving DecidableEq, Repr

/-- One entry of `event.Records`: `s3.bucket.name` and `s3.object.key`. -/
structure S3Record where
  bucketName : String
  objectKey : String
  deriving DecidableEq, Repr

/-- The invocation event.  `Records` is `none` when the field is absent. -/
structure Event where
  Records : Option (List S3Record)
  deriving DecidableEq, Repr

/-- The services around one invocation of the ingestion handler. -/
structure Env where
  /-- `process.env.WEBHOOK_URL`, `none` when the variable is not set. -/
  WEBHOOK_URL : Option String
  /-- The built-in `decodeURIComponent`, which throws on a malformed escape. -/
  decodeURIComponent : String → Except JsError String
  /-- The built-in StringToNumber conversion behind `Number(string)`. -/
  stringToNumber : String → JsNumber
  /-- The built-in `new URL(url)`; `none` when it throws. -/
  parseURL : String → Option URL
  /-- The error `db.connect()` rejects with, if it does. -/
  connectFault : Option JsError
  /-- The error the database answers the statement with, if any, given the
  number of statements already sent on the connection. -/
  queryFault : Nat → Option JsError
  /-- The object read from S3 and piped through `csv()`: the parsed rows in file
  order, or the error of the read or of the parse. -/
  getObject : String → String → Except JsError (List CsvRow)
  /-- The error event of the HTTPS request, if any. -/
  requestFault : Option JsError

/-! ## The `users` table -/

/-- The effect on the table of
`INSERT INTO users (...) VALUES ($1,...,$7) ON CONFLICT (email) DO UPDATE SET
monthly_income = EXCLUDED.monthly_income, credit_score = EXCLUDED.credit_score,
employment_status = EXCLUDED.employment_status, age = EXCLUDED.age`. -/
def upsertUser (excluded : UserRecord) (users : List UserRecord) : List UserRecord :=
  if users.any (fun r => decide (r.email = excluded.email)) then
    users.map (fun r =>
      if r.email = excluded.email then
        { r with
          monthly_income := excluded.monthly_income
          credit_score := excluded.credit_score
          employment_status := excluded.employment_status
          age := excluded.age }
      else r)
  else
    users ++ [excluded]

/-- The `users` table has at most one record per email (the UNIQUE constraint
that `ON CONFLICT (email)` relies on). -/
def UniqueEmails (users : List UserRecord) : Prop :=
  (users.map (fun r => r.email)).Nodup

instance (users : List UserRecord) : Decidable (UniqueEmails users) :=
  inferInstanceAs (Decidable (List.Nodup _))

/-- The effect of a statement on the table; `SELECT NOW()` reads nothing of it. -/
def Statement.exec : Statement → List UserRecord → List UserRecord
  | .selectNow, users => users
  | .upsert values, users => upsertUser values users

/-- The number of statements in a trace. -/
def queriesIn : List Effect → Nat
  | [] => 0
  | .dbQuery _ :: rest => queriesIn rest + 1
  | _ :: rest => queriesIn rest

/-- The call `await db.query(statement)`: the statement is sent; the database either
rejects it, leaving the table as it was, or applies it. -/
def dbQuery (env : Env) (statement : Statement) (w : World) : Except JsError Unit × World :=
  let sent := w.log (.dbQuery statement)
  match env.queryFault (queriesIn w.trace) with
  | some e => (.error e, sent)
  | none => (.ok (), { sent with users := statement.exec sent.users })

/-! ## `processCsv.js` -/

/-- The parameter array of the upsert (source lines 68-76). -/
def upsertValues (env : Env) (row : CsvRow) : UserRecord :=
  { user_id := orNull row.user_id
    name := orDefault row.name "User"
    email := row.email.getD ""
    monthly_income := (toNumber env.stringToNumber row.monthly_income).orZero
    credit_score := (toNumber env.stringToNumber row.credit_score).orZero
    employment_status := orNull row.employment_status
    age := (toNumber env.stringToNumber row.age).orZero }

/-- The loop `for (const row of rows)` with its counter `saved` (source lines
53-80). -/
def processRows (env : Env) : List CsvRow → Nat → World → Except JsError Nat × World
  | [], saved, w => (.ok saved, w)
  | row :: rest, saved, w =>
    if !truthy row.email then processRows env rest saved w
    else
      match dbQuery env (.upsert (upsertValues env row)) w with
      | (.error e, w1) => (.error e, w1)
      | (.ok _, w1) => processRows env rest (saved + 1) w1

/-- The body of the webhook request. -/
def webhookBody : String := "\x7b\x7d"

/-- The `options` object of `triggerWebhook` (source lines 118-126). -/
def requestOptions (u : URL) (body : String) : RequestOptions :=
  { hostname := u.hostname
    port := none
    path := u.pathname ++ (if u.search != "" then u.search else "")
    method := "POST"
    headers := [("Content-Type", .str "application/json"),
                ("Content-Length", .num body.length)] }

/-- The function `triggerWebhook(url)`: `new URL(url)` may throw; otherwise one
request is written and the promise settles on the response end or on the
request error. -/
def triggerWebhook (env : Env) (url : String) (w : World) : Except JsError Unit × World :=
  let body := webhookBody
  match env.parseURL url with
  | none => (.error ⟨"Invalid URL"⟩, w)
  | some u =>
    let sent := w.log (.httpsRequest (requestOptions u body) body)
    match env.requestFault with
    | some e => (.error e, sent)
    | none => (.ok (), sent)

/-- The function `testDatabaseConnection()`: connect, `SELECT NOW()`, end. -/
def testDatabaseConnection (env : Env) (w : World) : Except JsError Response × World :=
  let w1 := w.log .dbConnect
  match env.connectFault with
  | some e => (.error e, w1)
  | none =>
    match dbQuery env .selectNow w1 with
    | (.error e, w2) => (.error e, w2)
    | (.ok _, w2) => (.ok { statusCode := 200, headers := none, body := .text "DB OK" },
                      w2.log .dbEnd)

/-- The response of a completed ingestion (source lines 96-102). -/
def successResponse (saved : Nat) : Response :=
  { statusCode := 200
    headers := none
    body := .json [("message", .str "CSV processed and Workflow B triggered."),
                   ("inserted", .num saved)] }

/-- The `try` block of `handler` (source lines 34-103). -/
def tryBlock (env : Env) (bucket key : String) (w : World) : Except JsError Response × World :=
  let w1 := w.log (.s3GetObject bucket key)
  match env.getObject bucket key with
  | .error e => (.error e, w1)
  | .ok rows =>
    match processRows env rows 0 w1 with
    | (.error e, w2) => (.error e, w2)
    | (.ok saved, w2) =>
      if truthy env.WEBHOOK_URL then
        match triggerWebhook env (env.WEBHOOK_URL.getD "") w2 with
        | (.error e, w3) => (.error e, w3)
        | (.ok _, w3) => (.ok (successResponse saved), w3)
      else (.ok (successResponse saved), w2)

/-- The expression `key.replace(/\+/g, " ")`. -/
def plusToSpace (key : String) : String :=
  String.mk (key.data.map (fun c => if c = '+' then ' ' else c))

/-- The exported `handler(event)` of `processCsv.js`, run against a `users` table.
The result is the returned response or the raised error, with the final table
and the trace of the invocation.  The `catch` rethrows what it caught and the
`finally` ends the connection. -/
def handler (env : Env) (event : Event) (users : List UserRecord) :
    Except JsError Response × World :=
  let w0 : World := { users := users, trace := [] }
  match event.Records with
  | none => testDatabaseConnection env w0
  | some records =>
    match records.head? with
    | none => (.error ⟨"Cannot read properties of undefined (reading s3)"⟩, w0)
    | some record =>
      match env.decodeURIComponent (plusToSpace record.objectKey) with
      | .error e => (.error e, w0)
      | .ok key =>
        let w1 := w0.log .dbConnect
        match env.connectFault with
        | some e => (.error e, w1)
        | none =>
          let (result, w2) := tryBlock env record.bucketName key w1
          (result, w2.log .dbEnd)

/-! ## `getUploadUrl.js` -/

/-- The input of `new PutObjectCommand({ Bucket, Key, ContentType })`. -/
structure PutObjectCommand where
  Bucket : Option String
  Key : String
  ContentType : String
  deriving DecidableEq, Repr

/-- One call `getSignedUrl(s3Client, command, { expiresIn })`. -/
structure SignCall where
  command : PutObjectCommand
  expiresIn : Nat
  deriving DecidableEq, Repr

/-- The services around one invocation of the upload-URL handler. -/
structure IssuerEnv where
  /-- `process.env.BUCKET_NAME`, `none` when the variable is not set. -/
  BUCKET_NAME : Option String
  /-- The value of `Date.now()`: whole milliseconds since the epoch (at most
  8.64e15, where the template literal prints a Number as its decimal digits). -/
  now : Nat
  /-- The presigner: the signed URL, or the error it rejects with. -/
  getSignedUrl : SignCall → Except JsError String

/-- The template literal `uploads/${Date.now()}_users.csv`. -/
def objectKey (now : Nat) : String :=
  "uploads/" ++ toString now ++ "_users.csv"

/-- The call the handler makes to the presigner (source lines 9-21). -/
def signCall (env : IssuerEnv) : SignCall :=
  { command := { Bucket := env.BUCKET_NAME, Key := objectKey env.now, ContentType := "text/csv" }
    expiresIn := 300 }

/-- The exported `getUploadUrl(event)`; the event is not read.  The result is
the returned response and the calls made to the presigner. -/
def getUploadUrl (env : IssuerEnv) : Response × List SignCall :=
  let key := objectKey env.now
  let call := signCall env
  match env.getSignedUrl call with
  | .ok url =>
    ({ statusCode := 200
       headers := some [("Access-Control-Allow-Origin", "*")]
       body := .json [("uploadUrl", .str url), ("key", .str key)] }, [call])
  | .error error =>
    ({ statusCode := 500
       headers := none
       body := .json [("error", .str error.message)] }, [call])

/-! ## Vocabulary of the properties -/

/-- The row has a non-empty `email` field. -/
def hasEmail (row : CsvRow) : Bool := truthy row.email

/-- The upsert statements of the rows that have an email, in CSV order. -/
def upsertEffects (env : Env) (rows : List CsvRow) : List Effect :=
  (rows.filter hasEmail).map (fun row => .dbQuery (.upsert (upsertValues env row)))

/-- The table after the upserts of the rows that have an email, applied in CSV
order. -/
def ingest (env : Env) (rows : List CsvRow) (users : List UserRecord) : List UserRecord :=
  (rows.filter hasEmail).foldl (fun table row => upsertUser (upsertValues env row) table) users

/-- The HTTPS requests of a trace. -/
def webhookCalls : List Effect → List (RequestOptions × String)
  | [] => []
  | .httpsRequest options body :: rest => (options, body) :: webhookCalls rest
  | _ :: rest => webhookCalls rest

/-- The statements of a trace, in order. -/
def statementsOf : List Effect → List Statement
  | [] => []
  | .dbQuery statement :: rest => statement :: statementsOf rest
  | _ :: rest => statementsOf rest

/-- The last row of the CSV that has the given email, if any. -/
def lastRowFor (rows : List CsvRow) (email : String) : Option CsvRow :=
  (rows.filter (fun row => hasEmail row && decide (row.email = some email))).getLast?

/-- The decimal digits of a natural number, most significant first. -/
def decimalDigits (t : Nat) : List Char :=
  if t = 0 then ['0'] else (Nat.digits 10 t).reverse.map Nat.digitChar

/-- The coercion `string or null` of the data model: a non-empty string is kept,
a missing or empty field gives `null`. -/
def NullIfEmpty (field : Option String) (value : Option String) : Prop :=
  (∀ s, field = some s → s ≠ "" → value = some s) ∧
  ((field = none ∨ field = some "") → value = none)

/-- The coercion `default d` of the data model: a non-empty string is kept, a
missing or empty field gives the default. -/
def DefaultIfEmpty (field : Option String) (d : String) (value : String) : Prop :=
  (∀ s, field = some s → s ≠ "" → value = s) ∧
  ((field = none ∨ field = some "") → value = d)

/-- The numeric coercion of the claim: a missing or non-numeric field gives 0,
any other string gives the number it converts to (positive zero where that
number is negative zero). -/
def CoercedFrom (env : Env) (field : Option String) (value : JsNumber) : Prop :=
  ((field = none ∨ ∃ s, field = some s ∧ env.stringToNumber s = .nan) → value = .fin 0) ∧
  (∀ s, field = some s → env.stringToNumber s ≠ .nan →
    value = env.stringToNumber s ∨ (env.stringToNumber s = .negZero ∧ value = .fin 0))

/-! ## Auxiliary definitions for the proofs -/

/-- The outcome of the webhook step after the rows: the result of the run and
the effects the step adds to the trace. -/
def webhookStep (env : Env) (saved : Nat) : Except JsError Response × List Effect :=
  if truthy env.WEBHOOK_URL then
    match env.parseURL (env.WEBHOOK_URL.getD "") with
    | none => (.error ⟨"Invalid URL"⟩, [])
    | some u =>
      match env.requestFault with
      | some e => (.error e, [.httpsRequest (requestOptions u webhookBody) webhookBody])
      | none => (.ok (successResponse saved),
                 [.httpsRequest (requestOptions u webhookBody) webhookBody])
  else (.ok (successResponse saved), [])

/-- The `DO UPDATE SET` clause applied to one record: a record with the email
of the proposed values takes their four mutable columns. -/
def overwrite (v r : UserRecord) : UserRecord :=
  if r.email = v.email then
    { r with
      monthly_income := v.monthly_income
      credit_score := v.credit_score
      employment_status := v.employment_status
      age := v.age }
  else r

/-- The `DO UPDATE SET` clauses of a list of proposed values, applied in order. -/
def overwriteAll (vs : List UserRecord) (r : UserRecord) : UserRecord :=
  vs.foldl (fun r v => overwrite v r) r

/-- The upserts of a list of proposed values, applied in order. -/
def applyUpserts (vs : List UserRecord) (users : List UserRecord) : List UserRecord :=
  vs.foldl (fun table v => upsertUser v table) users

/-- The last of the proposed values with the given email, if any. -/
def lastFor (vs : List UserRecord) (email : String) : Option UserRecord :=
  (vs.filter (fun v => decide (v.email = email))).getLast?

/-- The record holds the four mutable columns of the proposed values. -/
def HoldsValues (v r : UserRecord) : Prop :=
  r.monthly_income = v.monthly_income ∧ r.credit_score = v.credit_score ∧
  r.employment_status = v.employment_status ∧ r.age = v.age

/-! ## Example inputs -/

/-- The row of the example in the claim: `monthly_income` is `abc`. -/
def abcRow : CsvRow :=
  { email := some "ann@example.com", monthly_income := some "abc", age := some "41" }

/-- A conversion for the examples: `41` is 41, `700` is 700, the empty string
is 0, `-0` is negative zero, everything else is NaN. -/
def sampleStringToNumber (s : String) : JsNumber :=
  if s = "41" then .fin 41 else if s = "700" then .fin 700 else if s = "" then .fin 0
  else if s = "-0" then .negZero else .nan

/-- An environment for the examples: no webhook, no fault, an empty object. -/
def quietEnv : Env :=
  { WEBHOOK_URL := none
    decodeURIComponent := fun s => .ok s
    stringToNumber := sampleStringToNumber
    parseURL := fun _ => none
    connectFault := none
    queryFault := fun _ => none
    getObject := fun _ _ => .ok []
    requestFault := none }

/-- A storage event for one uploaded object. -/
def sampleRecord : S3Record :=
  { bucketName := "loan-uploads", objectKey := "uploads/1700000000000_users.csv" }

/-- The event of the examples, with one record. -/
def sampleEvent : Event := { Records := some [sampleRecord] }

/-- A CSV of three rows; the second has no email. -/
def sampleRows : List CsvRow :=
  [abcRow, { name := some "No Mail", age := some "41" },
   { email := some "bob@example.com", credit_score := some "700" }]

/-- A CSV in which the same email occurs on two rows. -/
def repeatedRows : List CsvRow :=
  [abcRow,
   { email := some "ann@example.com", name := some "Ann B", monthly_income := some "700",
     employment_status := some "retired" }]

/-- A row with all seven fields; its `credit_score` is not numeric. -/
def fullRow : CsvRow :=
  { user_id := some "u-9", name := some "Ann Lee", email := some "ann@example.com",
    monthly_income := some "700", credit_score := some "abc",
    employment_status := some "retired", age := some "41" }

/-- The quiet environment with `sampleRows` as the parsed object. -/
def csvEnv : Env := { quietEnv with getObject := fun _ _ => .ok sampleRows }

/-- The environment `csvEnv` with a `WEBHOOK_URL` that `new URL` rejects. -/
def badUrlEnv : Env := { csvEnv with WEBHOOK_URL := some "not a url" }

/-- The URL object of `https://hooks.example.com/workflow-b`. -/
def sampleURL : URL :=
  { protocol := "https:", hostname := "hooks.example.com", port := "",
    pathname := "/workflow-b", search := "" }

/-- The environment `csvEnv` with a webhook configured. -/
def webhookEnv : Env :=
  { csvEnv with
    WEBHOOK_URL := some "https://hooks.example.com/workflow-b"
    parseURL := fun _ => some sampleURL }

/-- The environment `webhookEnv` with an unreachable webhook endpoint. -/
def webhookDownEnv : Env :=
  { webhookEnv with requestFault := some ⟨"connect ECONNREFUSED"⟩ }

/-- The environment `csvEnv` with a database that rejects the second statement. -/
def rejectingEnv : Env :=
  { csvEnv with
    queryFault := fun i => if i = 1 then some ⟨"value too long for type"⟩ else none }

/-- A record already in the table, with the email of `abcRow`. -/
def annRecord : UserRecord :=
  { user_id := some "u-1", name := "Ann", email := "ann@example.com",
    monthly_income := .fin 5000, credit_score := .fin 650,
    employment_status := some "employed", age := .fin 40 }

/-- A record already in the table, with another email. -/
def carlRecord : UserRecord :=
  { user_id := some "u-2", name := "Carl", email := "carl@example.com",
    monthly_income := .fin 3000, credit_score := .fin 600,
    employment_status := none, age := .fin 30 }

/-! ## The object key and the signing request -/

theorem digitChar_isDigit (d : Nat) (h : d < 10) : (Nat.digitChar d).isDigit = true := by
  interval_cases d <;> decide

theorem toDigitsCore_eq_digits (fuel : Nat) : ∀ (n : Nat) (acc : List Char), n < fuel → 0 < n →
    Nat.toDigitsCore 10 fuel n acc = (Nat.digits 10 n).reverse.map Nat.digitChar ++ acc := by
  induction fuel with
  | zero => intro n acc h; omega
  | succ f ih =>
    intro n acc hlt hpos
    have hd : Nat.digits 10 n = (n % 10) :: Nat.digits 10 (n / 10) :=
      Nat.digits_def' (by norm_num) hpos
    rw [Nat.toDigitsCore]
    by_cases h0 : n / 10 = 0
    · simp [h0, hd]
    · have h1 : n / 10 < f := by omega
      have h2 : 0 < n / 10 := Nat.pos_of_ne_zero h0
      simp only [h0, if_false]
      rw [ih (n / 10) _ h1 h2, hd]
      simp

theorem toString_eq_decimalDigits (t : Nat) : toString t = String.mk (decimalDigits t) := by
  show String.mk (Nat.toDigits 10 t) = _
  congr 1
  unfold decimalDigits
  by_cases h : t = 0
  · subst h; rfl
  · rw [if_neg h]
    unfold Nat.toDigits
    rw [toDigitsCore_eq_digits (t + 1) t [] (by omega) (Nat.pos_of_ne_zero h)]
    simp

theorem decimalDigits_ne_nil (t : Nat) : decimalDigits t ≠ [] := by
  unfold decimalDigits
  by_cases h : t = 0
  · simp [h]
  · simp [h, Nat.digits_ne_nil_iff_ne_zero]

theorem decimalDigits_isDigit (t : Nat) : ∀ c ∈ decimalDigits t, c.isDigit = true := by
  intro c hc
  unfold decimalDigits at hc
  by_cases h : t = 0
  · simp [h] at hc; subst hc; decide
  · simp only [h, if_false, List.mem_map, List.mem_reverse] at hc
    obtain ⟨d, hd, rfl⟩ := hc
    exact digitChar_isDigit d (Nat.digits_lt_base (by norm_num) hd)

/-- C8: at every clock value `t` the object key is `uploads/`, then the decimal
digits of `t`, then `_users.csv`; the presigner is called once, for a put of
that very key with content type `text/csv` and a validity of 300 seconds; and
when signing succeeds the key returned in the body is the key that was signed. -/
theorem getUploadUrl_key_and_validity (env : IssuerEnv) :
    objectKey env.now = "uploads/" ++ String.mk (decimalDigits env.now) ++ "_users.csv" ∧
    decimalDigits env.now ≠ [] ∧
    (∀ c ∈ decimalDigits env.now, c.isDigit = true) ∧
    (getUploadUrl env).2 =
      [{ command := { Bucket := env.BUCKET_NAME, Key := objectKey env.now,
                      ContentType := "text/csv" },
         expiresIn := 300 }] ∧
    (∀ url, env.getSignedUrl (signCall env) = .ok url →
      (getUploadUrl env).1.body =
        .json [("uploadUrl", .str url), ("key", .str (objectKey env.now))]) := by
  refine ⟨?_, decimalDigits_ne_nil _, decimalDigits_isDigit _, ?_, ?_⟩
  · unfold objectKey
    rw [toString_eq_decimalDigits]
  · show (getUploadUrl env).2 = [signCall env]
    simp only [getUploadUrl]
    split <;> rfl
  · intro url h
    unfold getUploadUrl
    simp [h]

/-- C9: when the presigner rejects, the response is `statusCode` 500 with body
`{error: <message>}` and carries no `headers` at all, so the CORS header of the
success response is missing from it. -/
theorem getUploadUrl_failure_without_headers :
    (getUploadUrl { BUCKET_NAME := some "loan-uploads", now := 1700000000000,
                    getSignedUrl := fun _ => .error ⟨"signing failed"⟩ }).1 =
      { statusCode := 500, headers := none,
        body := .json [("error", .str "signing failed")] } ∧
    (getUploadUrl { BUCKET_NAME := some "loan-uploads", now := 1700000000000,
                    getSignedUrl := fun _ => .ok "https://s3.example/upload" }).1.headers =
      some [("Access-Control-Allow-Origin", "*")] := by
  constructor <;> rfl

/-! ## The webhook request -/

/-- C10: for the webhook URL `https://example.com:8443/hook?x=1` the request
options take the hostname and the path with its query string from the URL,
but no port: the `options` object has no `port` key, although the URL names
port 8443. -/
theorem requestOptions_without_port :
    (requestOptions { protocol := "https:", hostname := "example.com", port := "8443",
                      pathname := "/hook", search := "?x=1" } webhookBody) =
      { hostname := "example.com", port := none, path := "/hook?x=1", method := "POST",
        headers := [("Content-Type", .str "application/json"),
                    ("Content-Length", .num 2)] } ∧
    (URL.mk "https:" "example.com" "8443" "/hook" "?x=1").port = "8443" := by
  constructor <;> decide

/-! ## The liveness check -/

/-- C7: when the event has no `Records` and the database accepts the connection
and answers the query, the handler returns `{statusCode: 200, body: "DB OK"}`;
the table is unchanged and the whole trace is: connect, `SELECT NOW()`, end
(no statement on `users`, no storage read, no webhook call). -/
theorem handler_liveness_check (env : Env) (event : Event) (users : List UserRecord)
    (hrecords : event.Records = none)
    (hconnect : env.connectFault = none)
    (hquery : env.queryFault 0 = none) :
    handler env event users =
      (.ok { statusCode := 200, headers := none, body := .text "DB OK" },
       { users := users, trace := [.dbConnect, .dbQuery .selectNow, .dbEnd] }) := by
  simp [handler, hrecords, testDatabaseConnection, hconnect, dbQuery, World.log, queriesIn,
    hquery, Statement.exec]

/-- An instance: the liveness check on a table of two records. -/
theorem handler_liveness_check_witness :
    handler quietEnv { Records := none } [annRecord, carlRecord] =
      (.ok { statusCode := 200, headers := none, body := .text "DB OK" },
       { users := [annRecord, carlRecord],
         trace := [.dbConnect, .dbQuery .selectNow, .dbEnd] }) :=
  handler_liveness_check quietEnv { Records := none } [annRecord, carlRecord] rfl rfl rfl

/-! ## The values of the upsert -/

theorem orZero_coercedFrom (env : Env) (field : Option String) :
    CoercedFrom env field (toNumber env.stringToNumber field).orZero := by
  cases field with
  | none =>
    refine ⟨fun _ => rfl, ?_⟩
    intro s hs
    cases hs
  | some s =>
    constructor
    · rintro (h | ⟨s', hs', hnan⟩)
      · cases h
      · cases hs'
        simp [toNumber, hnan, JsNumber.orZero, JsNumber.toBoolean]
    · intro s' hs' hnan
      cases hs'
      cases hv : env.stringToNumber s with
      | nan => exact absurd hv hnan
      | negZero => right; simp [toNumber, hv, JsNumber.orZero, JsNumber.toBoolean]
      | fin q =>
        left
        by_cases hq : q = 0
        · simp [toNumber, hv, JsNumber.orZero, JsNumber.toBoolean, hq]
        · simp [toNumber, hv, JsNumber.orZero, JsNumber.toBoolean, hq]
      | inf negative => left; simp [toNumber, hv, JsNumber.orZero, JsNumber.toBoolean]

theorem dbQuery_trace (env : Env) (statement : Statement) (w : World) :
    (dbQuery env statement w).2.trace = w.trace ++ [.dbQuery statement] := by
  unfold dbQuery
  cases env.queryFault (queriesIn w.trace) <;> rfl

/-- C4: for a row with a non-empty email the loop sends one upsert, and in its
values each of `monthly_income`, `credit_score` and `age` is 0 when the field is
missing or converts to NaN, and otherwise the number the string converts to
(with positive zero standing for negative zero). -/
theorem processRows_numeric_coercion (env : Env) (row : CsvRow) (saved : Nat) (w : World)
    (hemail : hasEmail row = true) :
    ∃ values : UserRecord,
      (processRows env [row] saved w).2.trace = w.trace ++ [.dbQuery (.upsert values)] ∧
      CoercedFrom env row.monthly_income values.monthly_income ∧
      CoercedFrom env row.credit_score values.credit_score ∧
      CoercedFrom env row.age values.age := by
  refine ⟨upsertValues env row, ?_, orZero_coercedFrom env _, orZero_coercedFrom env _,
    orZero_coercedFrom env _⟩
  have ht : truthy row.email = true := hemail
  have hq := dbQuery_trace env (.upsert (upsertValues env row)) w
  simp only [processRows, ht, Bool.not_true, Bool.false_eq_true, if_false]
  rcases hres : dbQuery env (.upsert (upsertValues env row)) w with ⟨r, w1⟩
  rw [hres] at hq
  cases r <;> simpa [processRows] using hq

/-- An instance: the row whose `monthly_income` is `abc`. -/
theorem processRows_numeric_coercion_witness :
    hasEmail abcRow = true ∧
    (upsertValues quietEnv abcRow).monthly_income = .fin 0 ∧
    ∃ values : UserRecord,
      (processRows quietEnv [abcRow] 0 ⟨[], []⟩).2.trace =
        ([] : List Effect) ++ [.dbQuery (.upsert values)] ∧
      CoercedFrom quietEnv abcRow.monthly_income values.monthly_income ∧
      CoercedFrom quietEnv abcRow.credit_score values.credit_score ∧
      CoercedFrom quietEnv abcRow.age values.age :=
  ⟨by decide, by decide,
    processRows_numeric_coercion quietEnv abcRow 0 ⟨[], []⟩ (by decide)⟩

/-! ## One upsert on the table -/

theorem map_update_of_absent (excluded : UserRecord) (f : UserRecord → UserRecord) :
    ∀ l : List UserRecord, (∀ r ∈ l, r.email ≠ excluded.email) →
      l.map (fun r => if r.email = excluded.email then f r else r) = l := by
  intro l
  induction l with
  | nil => intro _; rfl
  | cons a l ih =>
    intro h
    have ha : a.email ≠ excluded.email := h a (List.mem_cons_self _ _)
    simp only [List.map_cons, ha, if_false]
    rw [ih (fun r hr => h r (List.mem_cons_of_mem _ hr))]

theorem upsertUser_of_absent (excluded : UserRecord) (users : List UserRecord)
    (h : ∀ r ∈ users, r.email ≠ excluded.email) :
    upsertUser excluded users = users ++ [excluded] := by
  unfold upsertUser
  have : users.any (fun r => decide (r.email = excluded.email)) = false := by
    rw [List.any_eq_false]
    intro r hr
    simpa using h r hr
  simp [this]

theorem upsertUser_of_present (excluded : UserRecord) (users : List UserRecord)
    (h : ∃ r ∈ users, r.email = excluded.email) :
    upsertUser excluded users =
      users.map (fun r =>
        if r.email = excluded.email then
          { r with
            monthly_income := excluded.monthly_income
            credit_score := excluded.credit_score
            employment_status := excluded.employment_status
            age := excluded.age }
        else r) := by
  unfold upsertUser
  have : users.any (fun r => decide (r.email = excluded.email)) = true := by
    rw [List.any_eq_true]
    obtain ⟨r, hr, he⟩ := h
    exact ⟨r, hr, by simpa using he⟩
  simp [this]

theorem upsertValues_email (env : Env) (row : CsvRow) (e : String) (h : row.email = some e) :
    (upsertValues env row).email = e := by
  simp [upsertValues, h]

theorem upsertUser_rewrites_in_place (env : Env) (row : CsvRow) (e : String) (users : List UserRecord)
    (hrow : row.email = some e) (hunique : UniqueEmails users) :
    (∀ r ∈ users, r.email = e →
      ∃ before after, users = before ++ r :: after ∧
        upsertUser (upsertValues env row) users =
          before ++
            { user_id := r.user_id, name := r.name, email := r.email,
              monthly_income := (upsertValues env row).monthly_income,
              credit_score := (upsertValues env row).credit_score,
              employment_status := (upsertValues env row).employment_status,
              age := (upsertValues env row).age } :: after ∧
        (upsertUser (upsertValues env row) users).length = users.length) ∧
    ((∀ r ∈ users, r.email ≠ e) →
      upsertUser (upsertValues env row) users = users ++ [upsertValues env row] ∧
      (upsertValues env row).email = e ∧
      (upsertUser (upsertValues env row) users).length = users.length + 1) := by
  have hemail := upsertValues_email env row e hrow
  constructor
  · intro r hr hre
    obtain ⟨before, after, hsplit⟩ := List.append_of_mem hr
    refine ⟨before, after, hsplit, ?_, ?_⟩
    · rw [upsertUser_of_present _ _ ⟨r, hr, by rw [hemail]; exact hre⟩]
      subst hsplit
      unfold UniqueEmails at hunique
      rw [List.map_append, List.map_cons, List.nodup_append] at hunique
      obtain ⟨_, hcons, hdisj⟩ := hunique
      rw [List.nodup_cons] at hcons
      have hbefore : ∀ x ∈ before, x.email ≠ (upsertValues env row).email := by
        intro x hx hxe
        rw [hemail, ← hre] at hxe
        exact hdisj (List.mem_map_of_mem _ hx) (by rw [hxe]; exact List.mem_cons_self _ _)
      have hafter : ∀ x ∈ after, x.email ≠ (upsertValues env row).email := by
        intro x hx hxe
        rw [hemail, ← hre] at hxe
        exact hcons.1 (by rw [← hxe]; exact List.mem_map_of_mem _ hx)
      rw [List.map_append, List.map_cons, map_update_of_absent _ _ before hbefore,
        map_update_of_absent _ _ after hafter]
      simp [hemail, hre]
    · rw [upsertUser_of_present _ _ ⟨r, hr, by rw [hemail]; exact hre⟩]
      simp
  · intro habsent
    have h := upsertUser_of_absent (upsertValues env row) users
      (fun r hr => by rw [hemail]; exact habsent r hr)
    exact ⟨h, hemail, by rw [h]; simp⟩

theorem orNull_nullIfEmpty (field : Option String) : NullIfEmpty field (orNull field) := by
  cases field with
  | none =>
    exact ⟨fun s hs => (by cases hs), fun _ => rfl⟩
  | some t =>
    constructor
    · intro s hs hne
      cases hs
      simp [orNull, truthy, hne]
    · rintro (h | h)
      · cases h
      · cases h
        simp [orNull, truthy]

theorem orDefault_defaultIfEmpty (field : Option String) (d : String) :
    DefaultIfEmpty field d (orDefault field d) := by
  cases field with
  | none =>
    exact ⟨fun s hs => (by cases hs), fun _ => rfl⟩
  | some t =>
    constructor
    · intro s hs hne
      cases hs
      simp [orDefault, truthy, hne]
    · rintro (h | h)
      · cases h
      · cases h
        simp [orDefault, truthy]

/-- C3: in a table with one record per email, the upsert of a CSV row with email
`e` rewrites the record that has this email in place: its `monthly_income`,
`credit_score` and `age` become the row's numbers (0 for a missing or
non-numeric field), its `employment_status` the row's string (null for a
missing or empty one), its `user_id`, `name` and `email` stay, the records
before and after it stay, and the table keeps its length; when no record has
email `e`, the table gains exactly one record, last, with the row's `user_id`
(or null), `name` (or `User`), the email `e` and the same four values. -/
theorem upsertUser_frame (env : Env) (row : CsvRow) (e : String) (users : List UserRecord)
    (hrow : row.email = some e) (hunique : UniqueEmails users) :
    ∃ (uid : Option String) (n : String) (m c : JsNumber) (s : Option String) (a : JsNumber),
      NullIfEmpty row.user_id uid ∧ DefaultIfEmpty row.name "User" n ∧
      CoercedFrom env row.monthly_income m ∧ CoercedFrom env row.credit_score c ∧
      NullIfEmpty row.employment_status s ∧ CoercedFrom env row.age a ∧
      (∀ r ∈ users, r.email = e →
        ∃ before after, users = before ++ r :: after ∧
          upsertUser (upsertValues env row) users =
            before ++
              { user_id := r.user_id, name := r.name, email := r.email,
                monthly_income := m, credit_score := c,
                employment_status := s, age := a } :: after ∧
          (upsertUser (upsertValues env row) users).length = users.length) ∧
      ((∀ r ∈ users, r.email ≠ e) →
        upsertUser (upsertValues env row) users =
          users ++
            [{ user_id := uid, name := n, email := e,
               monthly_income := m, credit_score := c,
               employment_status := s, age := a }] ∧
        (upsertUser (upsertValues env row) users).length = users.length + 1) := by
  have hframe := upsertUser_rewrites_in_place env row e users hrow hunique
  have hvalues : upsertValues env row =
      { user_id := orNull row.user_id, name := orDefault row.name "User", email := e,
        monthly_income := (toNumber env.stringToNumber row.monthly_income).orZero,
        credit_score := (toNumber env.stringToNumber row.credit_score).orZero,
        employment_status := orNull row.employment_status,
        age := (toNumber env.stringToNumber row.age).orZero } := by
    simp [upsertValues, hrow]
  refine ⟨orNull row.user_id, orDefault row.name "User",
    (toNumber env.stringToNumber row.monthly_income).orZero,
    (toNumber env.stringToNumber row.credit_score).orZero,
    orNull row.employment_status, (toNumber env.stringToNumber row.age).orZero,
    orNull_nullIfEmpty _, orDefault_defaultIfEmpty _ _, orZero_coercedFrom env _,
    orZero_coercedFrom env _, orNull_nullIfEmpty _, orZero_coercedFrom env _, ?_, ?_⟩
  · exact hframe.1
  · intro habsent
    obtain ⟨happend, _, hlength⟩ := hframe.2 habsent
    refine ⟨?_, hlength⟩
    rw [happend, hvalues]

/-- An instance: a row with all seven fields, upserted into a table that holds
a record with its email, and into a table that does not. -/
theorem upsertUser_frame_witness :
    UniqueEmails [carlRecord, annRecord] ∧
    upsertUser (upsertValues quietEnv fullRow) [carlRecord, annRecord] =
      [carlRecord,
       { user_id := some "u-1", name := "Ann", email := "ann@example.com",
         monthly_income := .fin 700, credit_score := .fin 0,
         employment_status := some "retired", age := .fin 41 }] ∧
    upsertUser (upsertValues quietEnv fullRow) [carlRecord] =
      [carlRecord,
       { user_id := some "u-9", name := "Ann Lee", email := "ann@example.com",
         monthly_income := .fin 700, credit_score := .fin 0,
         employment_status := some "retired", age := .fin 41 }] ∧
    (∃ (uid : Option String) (n : String) (m c : JsNumber) (s : Option String) (a : JsNumber),
      NullIfEmpty fullRow.user_id uid ∧ DefaultIfEmpty fullRow.name "User" n ∧
      CoercedFrom quietEnv fullRow.monthly_income m ∧ CoercedFrom quietEnv fullRow.credit_score c ∧
      NullIfEmpty fullRow.employment_status s ∧ CoercedFrom quietEnv fullRow.age a ∧
      (∀ r ∈ [carlRecord, annRecord], r.email = "ann@example.com" →
        ∃ before after, [carlRecord, annRecord] = before ++ r :: after ∧
          upsertUser (upsertValues quietEnv fullRow) [carlRecord, annRecord] =
            before ++
              { user_id := r.user_id, name := r.name, email := r.email,
                monthly_income := m, credit_score := c,
                employment_status := s, age := a } :: after ∧
          (upsertUser (upsertValues quietEnv fullRow) [carlRecord, annRecord]).length = [carlRecord, annRecord].length) ∧
      ((∀ r ∈ [carlRecord, annRecord], r.email ≠ "ann@example.com") →
        upsertUser (upsertValues quietEnv fullRow) [carlRecord, annRecord] =
          [carlRecord, annRecord] ++
            [{ user_id := uid, name := n, email := "ann@example.com",
               monthly_income := m, credit_score := c,
               employment_status := s, age := a }] ∧
        (upsertUser (upsertValues quietEnv fullRow) [carlRecord, annRecord]).length = [carlRecord, annRecord].length + 1)) :=
  ⟨by decide, by decide, by decide,
    upsertUser_frame quietEnv fullRow "ann@example.com" [carlRecord, annRecord] rfl (by decide)⟩
/-! ## The row loop -/

theorem queriesIn_append (xs ys : List Effect) :
    queriesIn (xs ++ ys) = queriesIn xs + queriesIn ys := by
  induction xs with
  | nil => simp [queriesIn]
  | cons x xs ih =>
    cases x <;> simp [queriesIn, ih]
    omega

theorem statementsOf_append (xs ys : List Effect) :
    statementsOf (xs ++ ys) = statementsOf xs ++ statementsOf ys := by
  induction xs with
  | nil => simp [statementsOf]
  | cons x xs ih => cases x <;> simp [statementsOf, ih]

theorem webhookCalls_append (xs ys : List Effect) :
    webhookCalls (xs ++ ys) = webhookCalls xs ++ webhookCalls ys := by
  induction xs with
  | nil => simp [webhookCalls]
  | cons x xs ih => cases x <;> simp [webhookCalls, ih]

theorem statementsOf_upsertEffects (env : Env) (rows : List CsvRow) :
    statementsOf (upsertEffects env rows) =
      (rows.filter hasEmail).map (fun row => Statement.upsert (upsertValues env row)) := by
  unfold upsertEffects
  induction rows.filter hasEmail with
  | nil => rfl
  | cons r rs ih => simp [statementsOf, ih]

theorem webhookCalls_upsertEffects (env : Env) (rows : List CsvRow) :
    webhookCalls (upsertEffects env rows) = [] := by
  unfold upsertEffects
  induction rows.filter hasEmail with
  | nil => rfl
  | cons r rs ih => simp [webhookCalls, ih]

theorem queriesIn_upsertEffects (env : Env) (rows : List CsvRow) :
    queriesIn (upsertEffects env rows) = (rows.filter hasEmail).length := by
  unfold upsertEffects
  induction rows.filter hasEmail with
  | nil => rfl
  | cons r rs ih => simp [queriesIn, ih]

theorem dbQuery_ok (env : Env) (statement : Statement) (w : World)
    (h : env.queryFault (queriesIn w.trace) = none) :
    dbQuery env statement w =
      (.ok (), { users := statement.exec w.users, trace := w.trace ++ [.dbQuery statement] }) := by
  simp [dbQuery, h, World.log]

theorem dbQuery_error (env : Env) (statement : Statement) (w : World) (e : JsError)
    (h : env.queryFault (queriesIn w.trace) = some e) :
    dbQuery env statement w =
      (.error e, { users := w.users, trace := w.trace ++ [.dbQuery statement] }) := by
  simp [dbQuery, h, World.log]

theorem processRows_ok (env : Env) : ∀ (rows : List CsvRow) (saved : Nat) (w : World),
    (∀ i, i < (rows.filter hasEmail).length → env.queryFault (queriesIn w.trace + i) = none) →
    processRows env rows saved w =
      (.ok (saved + (rows.filter hasEmail).length),
       { users := ingest env rows w.users, trace := w.trace ++ upsertEffects env rows }) := by
  intro rows
  induction rows with
  | nil => intro saved w _; simp [processRows, ingest, upsertEffects]
  | cons row rest ih =>
    intro saved w h
    by_cases hrow : hasEmail row = true
    · have ht : truthy row.email = true := hrow
      have h0 : env.queryFault (queriesIn w.trace) = none := by
        simpa using h 0 (by simp [List.filter_cons, hrow])
      simp only [processRows, ht, Bool.not_true, Bool.false_eq_true, if_false]
      rw [dbQuery_ok env _ w h0]
      simp only
      rw [ih]
      · simp [ingest, upsertEffects, List.filter_cons, hrow, Statement.exec]
        omega
      · intro i hi
        have := h (i + 1) (by simp [List.filter_cons, hrow]; exact hi)
        simpa [queriesIn_append, queriesIn, Nat.add_assoc, Nat.add_comm 1 i] using this
    · have hf : hasEmail row = false := by simpa using hrow
      have ht : truthy row.email = false := hf
      simp only [processRows, ht, Bool.not_false, if_true]
      rw [ih saved w (by simpa [List.filter_cons, hf] using h)]
      simp [ingest, upsertEffects, List.filter_cons, hf]

theorem processRows_append (env : Env) : ∀ (before after : List CsvRow) (saved n : Nat)
    (w w1 : World), processRows env before saved w = (.ok n, w1) →
    processRows env (before ++ after) saved w = processRows env after n w1 := by
  intro before
  induction before with
  | nil =>
    intro after saved n w w1 h
    simp [processRows] at h
    obtain ⟨rfl, rfl⟩ := h
    rfl
  | cons row rest ih =>
    intro after saved n w w1 h
    by_cases ht : truthy row.email = true
    · simp only [processRows, ht, Bool.not_true, Bool.false_eq_true, if_false] at h
      simp only [List.cons_append, processRows, ht, Bool.not_true, Bool.false_eq_true, if_false]
      rcases hq : dbQuery env (.upsert (upsertValues env row)) w with ⟨r, w2⟩
      rw [hq] at h
      cases r with
      | error e => simp at h
      | ok u => exact ih after _ n w2 w1 h
    · have hf : truthy row.email = false := by simpa using ht
      simp only [processRows, hf, Bool.not_false, if_true] at h
      simp only [List.cons_append, processRows, hf, Bool.not_false, if_true]
      exact ih after saved n w w1 h

theorem processRows_error (env : Env) (before after : List CsvRow) (row : CsvRow) (e : JsError)
    (saved : Nat) (w : World) (hrow : hasEmail row = true)
    (hbefore : ∀ i, i < (before.filter hasEmail).length →
      env.queryFault (queriesIn w.trace + i) = none)
    (hfail : env.queryFault (queriesIn w.trace + (before.filter hasEmail).length) = some e) :
    processRows env (before ++ row :: after) saved w =
      (.error e,
       { users := ingest env before w.users,
         trace := w.trace ++ upsertEffects env before ++
           [.dbQuery (.upsert (upsertValues env row))] }) := by
  rw [processRows_append env before (row :: after) saved _ w _ (processRows_ok env before saved w hbefore)]
  have ht : truthy row.email = true := hrow
  simp only [processRows, ht, Bool.not_true, Bool.false_eq_true, if_false]
  rw [dbQuery_error env _ _ e (by simpa [queriesIn_append, queriesIn_upsertEffects] using hfail)]

/-! ## The ingestion run -/

theorem handler_modeB (env : Env) (event : Event) (record : S3Record) (more : List S3Record)
    (key : String) (users : List UserRecord)
    (hrecords : event.Records = some (record :: more))
    (hkey : env.decodeURIComponent (plusToSpace record.objectKey) = .ok key)
    (hconnect : env.connectFault = none) :
    handler env event users =
      ((tryBlock env record.bucketName key ⟨users, [.dbConnect]⟩).1,
       (tryBlock env record.bucketName key ⟨users, [.dbConnect]⟩).2.log .dbEnd) := by
  simp [handler, hrecords, hkey, hconnect, World.log]

theorem tryBlock_rows_ok (env : Env) (bucket key : String) (rows : List CsvRow) (w : World)
    (hobject : env.getObject bucket key = .ok rows)
    (hqueries : ∀ i, i < (rows.filter hasEmail).length →
      env.queryFault (queriesIn w.trace + i) = none) :
    tryBlock env bucket key w =
      ((webhookStep env (rows.filter hasEmail).length).1,
       { users := ingest env rows w.users,
         trace := w.trace ++ [.s3GetObject bucket key] ++ upsertEffects env rows ++
           (webhookStep env (rows.filter hasEmail).length).2 }) := by
  have hrows := processRows_ok env rows 0 (w.log (.s3GetObject bucket key))
    (by simpa [World.log, queriesIn_append, queriesIn] using hqueries)
  simp only [tryBlock, hobject, hrows, webhookStep, Nat.zero_add]
  by_cases ht : truthy env.WEBHOOK_URL = true
  · simp only [ht, if_true, triggerWebhook]
    cases hp : env.parseURL (env.WEBHOOK_URL.getD "") with
    | none => simp [World.log]
    | some u =>
      cases hf : env.requestFault with
      | none => simp [World.log]
      | some e => simp [World.log]
  · simp [ht, World.log]

theorem tryBlock_row_error (env : Env) (bucket key : String) (before after : List CsvRow)
    (row : CsvRow) (e : JsError) (w : World)
    (hobject : env.getObject bucket key = .ok (before ++ row :: after))
    (hrow : hasEmail row = true)
    (hbefore : ∀ i, i < (before.filter hasEmail).length →
      env.queryFault (queriesIn w.trace + i) = none)
    (hfail : env.queryFault (queriesIn w.trace + (before.filter hasEmail).length) = some e) :
    tryBlock env bucket key w =
      (.error e,
       { users := ingest env before w.users,
         trace := w.trace ++ [.s3GetObject bucket key] ++ upsertEffects env before ++
           [.dbQuery (.upsert (upsertValues env row))] }) := by
  have hrows := processRows_error env before after row e 0 (w.log (.s3GetObject bucket key)) hrow
    (by simpa [World.log, queriesIn_append, queriesIn] using hbefore)
    (by simpa [World.log, queriesIn_append, queriesIn] using hfail)
  simp only [tryBlock, hobject, hrows]
  simp [World.log]

theorem statementsOf_webhookStep (env : Env) (saved : Nat) :
    statementsOf (webhookStep env saved).2 = [] := by
  unfold webhookStep
  split
  · split
    · rfl
    · split <;> rfl
  · rfl

theorem handler_rows_ok (env : Env) (event : Event) (record : S3Record)
    (more : List S3Record) (key : String) (rows : List CsvRow) (users : List UserRecord)
    (hrecords : event.Records = some (record :: more))
    (hkey : env.decodeURIComponent (plusToSpace record.objectKey) = .ok key)
    (hconnect : env.connectFault = none)
    (hobject : env.getObject record.bucketName key = .ok rows)
    (hqueries : ∀ i, i < (rows.filter hasEmail).length → env.queryFault i = none) :
    handler env event users =
      ((webhookStep env (rows.filter hasEmail).length).1,
       { users := ingest env rows users,
         trace := [.dbConnect, .s3GetObject record.bucketName key] ++ upsertEffects env rows ++
           (webhookStep env (rows.filter hasEmail).length).2 ++ [.dbEnd] }) := by
  rw [handler_modeB env event record more key users hrecords hkey hconnect,
    tryBlock_rows_ok env record.bucketName key rows ⟨users, [.dbConnect]⟩ hobject
      (by simpa [queriesIn] using hqueries)]
  simp [World.log]

/-- C1: when the object is read and parsed into `rows` and the database rejects
none of the upserts, the statements of the run are exactly the upserts of the
rows with a non-empty email, in CSV order; the final table is the starting
table with these upserts applied; a returned response is the success response
with `inserted` equal to the number of these rows, and it is returned whenever
the webhook step does not fail; and the final table is the one obtained from
the CSV with the rows without email removed. -/
theorem handler_upserts_rows_with_email (env : Env) (event : Event) (record : S3Record)
    (more : List S3Record) (key : String) (rows : List CsvRow) (users : List UserRecord)
    (hrecords : event.Records = some (record :: more))
    (hkey : env.decodeURIComponent (plusToSpace record.objectKey) = .ok key)
    (hconnect : env.connectFault = none)
    (hobject : env.getObject record.bucketName key = .ok rows)
    (hqueries : ∀ i, i < (rows.filter hasEmail).length → env.queryFault i = none) :
    statementsOf (handler env event users).2.trace =
      (rows.filter hasEmail).map (fun row => Statement.upsert (upsertValues env row)) ∧
    (handler env event users).2.users = ingest env rows users ∧
    (∀ response, (handler env event users).1 = .ok response →
      response.statusCode = 200 ∧
      response.body = .json [("message", .str "CSV processed and Workflow B triggered."),
                             ("inserted", .num (rows.filter hasEmail).length)]) ∧
    ((truthy env.WEBHOOK_URL = false ∨
        ∃ u, env.parseURL (env.WEBHOOK_URL.getD "") = some u ∧ env.requestFault = none) →
      (handler env event users).1 = .ok (successResponse (rows.filter hasEmail).length)) ∧
    (handler { env with getObject := fun _ _ => .ok (rows.filter hasEmail) } event users).2.users =
      (handler env event users).2.users := by
  have hrun := handler_rows_ok env event record more key rows users hrecords hkey hconnect
    hobject hqueries
  have hfiltered := handler_rows_ok { env with getObject := fun _ _ => .ok (rows.filter hasEmail) }
    event record more key (rows.filter hasEmail) users hrecords hkey hconnect rfl
    (by simpa [List.filter_filter] using hqueries)
  refine ⟨?_, ?_, ?_, ?_, ?_⟩
  · rw [hrun]
    simp [statementsOf_append, statementsOf_upsertEffects, statementsOf_webhookStep, statementsOf]
  · rw [hrun]
  · intro response hresponse
    rw [hrun] at hresponse
    simp only [webhookStep] at hresponse
    split at hresponse
    · split at hresponse
      · simp at hresponse
      · split at hresponse
        · simp at hresponse
        · simp only [Except.ok.injEq] at hresponse
          subst hresponse
          exact ⟨rfl, rfl⟩
    · simp only [Except.ok.injEq] at hresponse
      subst hresponse
      exact ⟨rfl, rfl⟩
  · intro hwebhook
    rw [hrun]
    rcases hwebhook with hunset | ⟨u, hu, hfault⟩
    · simp [webhookStep, hunset]
    · simp only [webhookStep, hu, hfault]
      split <;> rfl
  · rw [hrun, hfiltered]
    simp [ingest, List.filter_filter, upsertValues]

/-- An instance: the sample CSV, ingested into a table of one record. -/
theorem handler_upserts_rows_with_email_witness :
    csvEnv.getObject sampleRecord.bucketName (plusToSpace sampleRecord.objectKey) = .ok sampleRows ∧
    (sampleRows.filter hasEmail).length = 2 ∧
    (statementsOf (handler csvEnv sampleEvent [carlRecord]).2.trace =
      (sampleRows.filter hasEmail).map (fun row => Statement.upsert (upsertValues csvEnv row)) ∧
    (handler csvEnv sampleEvent [carlRecord]).2.users = ingest csvEnv sampleRows [carlRecord] ∧
    (∀ response, (handler csvEnv sampleEvent [carlRecord]).1 = .ok response →
      response.statusCode = 200 ∧
      response.body = .json [("message", .str "CSV processed and Workflow B triggered."),
                             ("inserted", .num (sampleRows.filter hasEmail).length)]) ∧
    ((truthy csvEnv.WEBHOOK_URL = false ∨
        ∃ u, csvEnv.parseURL (csvEnv.WEBHOOK_URL.getD "") = some u ∧ csvEnv.requestFault = none) →
      (handler csvEnv sampleEvent [carlRecord]).1 = .ok (successResponse (sampleRows.filter hasEmail).length)) ∧
    (handler { csvEnv with getObject := fun _ _ => .ok (sampleRows.filter hasEmail) } sampleEvent [carlRecord]).2.users =
      (handler csvEnv sampleEvent [carlRecord]).2.users) :=
  ⟨rfl, by decide,
    handler_upserts_rows_with_email csvEnv sampleEvent sampleRecord []
      (plusToSpace sampleRecord.objectKey) sampleRows [carlRecord] rfl rfl rfl rfl (fun _ _ => rfl)⟩

/-- C6, amended: when the object is read and parsed and the database rejects
none of the upserts, the run makes exactly one HTTPS request (the webhook
request) if `WEBHOOK_URL` is a non-empty string that `new URL` accepts, and none
if `WEBHOOK_URL` is unset or empty, in which case the run returns the success
response, `statusCode` 200 with the `inserted` count; if `WEBHOOK_URL` is a
non-empty string that `new URL` rejects, the run makes no request and raises
the error of `new URL`. -/
theorem handler_webhook_calls (env : Env) (event : Event) (record : S3Record)
    (more : List S3Record) (key : String) (rows : List CsvRow) (users : List UserRecord)
    (hrecords : event.Records = some (record :: more))
    (hkey : env.decodeURIComponent (plusToSpace record.objectKey) = .ok key)
    (hconnect : env.connectFault = none)
    (hobject : env.getObject record.bucketName key = .ok rows)
    (hqueries : ∀ i, i < (rows.filter hasEmail).length → env.queryFault i = none) :
    (∀ url u, env.WEBHOOK_URL = some url → url ≠ "" → env.parseURL url = some u →
      webhookCalls (handler env event users).2.trace =
        [(requestOptions u webhookBody, webhookBody)]) ∧
    ((env.WEBHOOK_URL = none ∨ env.WEBHOOK_URL = some "") →
      webhookCalls (handler env event users).2.trace = [] ∧
      (handler env event users).1 =
        .ok { statusCode := 200, headers := none,
              body := .json [("message", .str "CSV processed and Workflow B triggered."),
                             ("inserted", .num (rows.filter hasEmail).length)] }) ∧
    (∀ url, env.WEBHOOK_URL = some url → url ≠ "" → env.parseURL url = none →
      webhookCalls (handler env event users).2.trace = [] ∧
      (handler env event users).1 = .error ⟨"Invalid URL"⟩) := by
  have hrun := handler_rows_ok env event record more key rows users hrecords hkey hconnect
    hobject hqueries
  refine ⟨?_, ?_, ?_⟩
  · intro url u hurl hne hu
    have ht : truthy (some url) = true := by simp [truthy, hne]
    rw [hrun]
    simp only [webhookStep, hurl, ht, if_true, Option.getD_some, hu]
    cases env.requestFault <;>
      simp [webhookCalls_append, webhookCalls_upsertEffects, webhookCalls]
  · intro hunset
    have ht : truthy env.WEBHOOK_URL = false := by
      rcases hunset with h | h <;> simp [h, truthy]
    rw [hrun]
    simp [webhookStep, ht, webhookCalls_append, webhookCalls_upsertEffects, webhookCalls,
      successResponse]
  · intro url hurl hne hu
    have ht : truthy (some url) = true := by simp [truthy, hne]
    rw [hrun]
    simp [webhookStep, hurl, ht, hu, webhookCalls_append, webhookCalls_upsertEffects,
      webhookCalls]

/-- An instance: the sample CSV with a webhook configured, without one, and with
one that is not a URL. -/
theorem handler_webhook_calls_witness :
    webhookCalls (handler webhookEnv sampleEvent [carlRecord]).2.trace =
      [(requestOptions sampleURL webhookBody, webhookBody)] ∧
    (webhookCalls (handler csvEnv sampleEvent [carlRecord]).2.trace = [] ∧
      (handler csvEnv sampleEvent [carlRecord]).1 =
        .ok { statusCode := 200, headers := none,
              body := .json [("message", .str "CSV processed and Workflow B triggered."),
                             ("inserted", .num (sampleRows.filter hasEmail).length)] }) ∧
    (webhookCalls (handler badUrlEnv sampleEvent [carlRecord]).2.trace = [] ∧
      (handler badUrlEnv sampleEvent [carlRecord]).1 = .error ⟨"Invalid URL"⟩) :=
  ⟨(handler_webhook_calls webhookEnv sampleEvent sampleRecord [] (plusToSpace sampleRecord.objectKey)
      sampleRows [carlRecord] rfl rfl rfl rfl (fun _ _ => rfl)).1
      "https://hooks.example.com/workflow-b" sampleURL rfl (by decide) rfl,
   (handler_webhook_calls csvEnv sampleEvent sampleRecord [] (plusToSpace sampleRecord.objectKey)
      sampleRows [carlRecord] rfl rfl rfl rfl (fun _ _ => rfl)).2.1 (Or.inl rfl),
   (handler_webhook_calls badUrlEnv sampleEvent sampleRecord [] (plusToSpace sampleRecord.objectKey)
      sampleRows [carlRecord] rfl rfl rfl rfl (fun _ _ => rfl)).2.2
      "not a url" rfl (by decide) rfl⟩

/-- C6 as stated fails: with `WEBHOOK_URL` set to `not a url`, which `new URL`
rejects, the object is read and parsed, both upserts of the sample CSV are
accepted and applied, and yet the run makes no HTTPS request, not one. -/
theorem handler_webhook_calls_not_a_url :
    badUrlEnv.WEBHOOK_URL = some "not a url" ∧
    badUrlEnv.getObject sampleRecord.bucketName (plusToSpace sampleRecord.objectKey) = .ok sampleRows ∧
    (statementsOf (handler badUrlEnv sampleEvent [carlRecord]).2.trace).length = 2 ∧
    (handler badUrlEnv sampleEvent [carlRecord]).2.users.length = 3 ∧
    webhookCalls (handler badUrlEnv sampleEvent [carlRecord]).2.trace = [] ∧
    (webhookCalls (handler badUrlEnv sampleEvent [carlRecord]).2.trace).length ≠ 1 := by
  refine ⟨rfl, rfl, ?_, ?_, ?_, ?_⟩ <;> decide

/-- C5: (1) when the database rejects the upsert of a row with error `e` after
accepting the upserts of the rows before it, the handler raises `e` and returns
no response; the trace holds the upserts of the earlier rows, the rejected
upsert and then the end of the connection, with no upsert of a later row; and
the table is the starting table with the earlier upserts applied.  (2) When
every upsert is accepted and the webhook request fails with `e`, the handler
raises `e`; the trace ends with the request and the end of the connection, and
the table has every upsert of the CSV applied.  (3) When every upsert is
accepted and `new URL` rejects `WEBHOOK_URL`, so that the dispatch fails before
any request, the handler raises that error; the trace ends with the end of the
connection, and the table has every upsert of the CSV applied. -/
theorem handler_failure_not_atomic (env : Env) (event : Event) (record : S3Record)
    (more : List S3Record) (key : String) (users : List UserRecord)
    (hrecords : event.Records = some (record :: more))
    (hkey : env.decodeURIComponent (plusToSpace record.objectKey) = .ok key)
    (hconnect : env.connectFault = none) :
    (∀ (before after : List CsvRow) (row : CsvRow) (e : JsError),
      env.getObject record.bucketName key = .ok (before ++ row :: after) →
      hasEmail row = true →
      (∀ i, i < (before.filter hasEmail).length → env.queryFault i = none) →
      env.queryFault (before.filter hasEmail).length = some e →
      handler env event users =
        (.error e,
         { users := ingest env before users,
           trace := [.dbConnect, .s3GetObject record.bucketName key] ++
             upsertEffects env before ++
             [.dbQuery (.upsert (upsertValues env row)), .dbEnd] })) ∧
    (∀ (rows : List CsvRow) (url : String) (u : URL) (e : JsError),
      env.getObject record.bucketName key = .ok rows →
      (∀ i, i < (rows.filter hasEmail).length → env.queryFault i = none) →
      env.WEBHOOK_URL = some url → url ≠ "" → env.parseURL url = some u →
      env.requestFault = some e →
      handler env event users =
        (.error e,
         { users := ingest env rows users,
           trace := [.dbConnect, .s3GetObject record.bucketName key] ++
             upsertEffects env rows ++
             [.httpsRequest (requestOptions u webhookBody) webhookBody, .dbEnd] })) ∧
    (∀ (rows : List CsvRow) (url : String),
      env.getObject record.bucketName key = .ok rows →
      (∀ i, i < (rows.filter hasEmail).length → env.queryFault i = none) →
      env.WEBHOOK_URL = some url → url ≠ "" → env.parseURL url = none →
      handler env event users =
        (.error ⟨"Invalid URL"⟩,
         { users := ingest env rows users,
           trace := [.dbConnect, .s3GetObject record.bucketName key] ++
             upsertEffects env rows ++ [.dbEnd] })) := by
  refine ⟨?_, ?_, ?_⟩
  · intro before after row e hobject hrow hbefore hfail
    rw [handler_modeB env event record more key users hrecords hkey hconnect,
      tryBlock_row_error env record.bucketName key before after row e ⟨users, [.dbConnect]⟩
        hobject hrow (by simpa [queriesIn] using hbefore) (by simpa [queriesIn] using hfail)]
    simp [World.log]
  · intro rows url u e hobject hqueries hurl hne hu hfault
    have ht : truthy (some url) = true := by simp [truthy, hne]
    rw [handler_rows_ok env event record more key rows users hrecords hkey hconnect
      hobject hqueries]
    simp [webhookStep, ht, hurl, hu, hfault]
  · intro rows url hobject hqueries hurl hne hu
    have ht : truthy (some url) = true := by simp [truthy, hne]
    rw [handler_rows_ok env event record more key rows users hrecords hkey hconnect
      hobject hqueries]
    simp [webhookStep, ht, hurl, hu]

/-- An instance: a database that rejects the second upsert, an unreachable
webhook, and a webhook address that is not a URL. -/
theorem handler_failure_not_atomic_witness :
    handler rejectingEnv sampleEvent [carlRecord] =
      (.error ⟨"value too long for type"⟩,
       { users := ingest rejectingEnv [abcRow, { name := some "No Mail", age := some "41" }]
           [carlRecord],
         trace := [.dbConnect, .s3GetObject sampleRecord.bucketName (plusToSpace sampleRecord.objectKey)] ++
           upsertEffects rejectingEnv [abcRow, { name := some "No Mail", age := some "41" }] ++
           [.dbQuery (.upsert (upsertValues rejectingEnv
              { email := some "bob@example.com", credit_score := some "700" })), .dbEnd] }) ∧
    handler webhookDownEnv sampleEvent [carlRecord] =
      (.error ⟨"connect ECONNREFUSED"⟩,
       { users := ingest webhookDownEnv sampleRows [carlRecord],
         trace := [.dbConnect, .s3GetObject sampleRecord.bucketName (plusToSpace sampleRecord.objectKey)] ++
           upsertEffects webhookDownEnv sampleRows ++
           [.httpsRequest (requestOptions sampleURL webhookBody) webhookBody, .dbEnd] }) ∧
    handler badUrlEnv sampleEvent [carlRecord] =
      (.error ⟨"Invalid URL"⟩,
       { users := ingest badUrlEnv sampleRows [carlRecord],
         trace := [.dbConnect, .s3GetObject sampleRecord.bucketName (plusToSpace sampleRecord.objectKey)] ++
           upsertEffects badUrlEnv sampleRows ++ [.dbEnd] }) :=
  ⟨(handler_failure_not_atomic rejectingEnv sampleEvent sampleRecord [] (plusToSpace sampleRecord.objectKey)
      [carlRecord] rfl rfl rfl).1
      [abcRow, { name := some "No Mail", age := some "41" }] []
      { email := some "bob@example.com", credit_score := some "700" }
      ⟨"value too long for type"⟩ rfl (by decide) (by decide) rfl,
   (handler_failure_not_atomic webhookDownEnv sampleEvent sampleRecord [] (plusToSpace sampleRecord.objectKey)
      [carlRecord] rfl rfl rfl).2.1
      sampleRows "https://hooks.example.com/workflow-b" sampleURL ⟨"connect ECONNREFUSED"⟩
      rfl (fun _ _ => rfl) rfl (by decide) rfl rfl,
   (handler_failure_not_atomic badUrlEnv sampleEvent sampleRecord [] (plusToSpace sampleRecord.objectKey)
      [carlRecord] rfl rfl rfl).2.2
      sampleRows "not a url" rfl (fun _ _ => rfl) rfl (by decide) rfl⟩

/-! ## Running the loop twice -/

theorem overwrite_email (v r : UserRecord) : (overwrite v r).email = r.email := by
  unfold overwrite; split <;> rfl

theorem upsertUser_present_eq_map (v : UserRecord) (users : List UserRecord)
    (h : v.email ∈ users.map (fun r => r.email)) :
    upsertUser v users = users.map (overwrite v) := by
  rw [List.mem_map] at h
  obtain ⟨r, hr, he⟩ := h
  rw [upsertUser_of_present v users ⟨r, hr, he⟩]
  rfl

theorem upsertUser_absent_eq_append (v : UserRecord) (users : List UserRecord)
    (h : v.email ∉ users.map (fun r => r.email)) :
    upsertUser v users = users ++ [v] := by
  apply upsertUser_of_absent
  intro r hr he
  exact h (List.mem_map.mpr ⟨r, hr, he⟩)

theorem map_email_map_overwrite (v : UserRecord) (users : List UserRecord) :
    (users.map (overwrite v)).map (fun r => r.email) = users.map (fun r => r.email) := by
  rw [List.map_map]
  apply List.map_congr_left
  intro r _
  exact overwrite_email v r

theorem emails_upsertUser (v : UserRecord) (users : List UserRecord) :
    (upsertUser v users).map (fun r => r.email) =
      if v.email ∈ users.map (fun r => r.email) then users.map (fun r => r.email)
      else users.map (fun r => r.email) ++ [v.email] := by
  by_cases h : v.email ∈ users.map (fun r => r.email)
  · rw [if_pos h, upsertUser_present_eq_map v users h, map_email_map_overwrite]
  · rw [if_neg h, upsertUser_absent_eq_append v users h]
    simp

theorem mem_emails_upsertUser (v : UserRecord) (users : List UserRecord) (e : String) :
    e ∈ (upsertUser v users).map (fun r => r.email) ↔
      e ∈ users.map (fun r => r.email) ∨ e = v.email := by
  rw [emails_upsertUser]
  by_cases h : v.email ∈ users.map (fun r => r.email)
  · rw [if_pos h]
    constructor
    · exact Or.inl
    · rintro (h1 | h1)
      · exact h1
      · rw [h1]; exact h
  · rw [if_neg h]
    simp

theorem uniqueEmails_upsertUser (v : UserRecord) (users : List UserRecord)
    (h : UniqueEmails users) : UniqueEmails (upsertUser v users) := by
  unfold UniqueEmails at *
  rw [emails_upsertUser]
  by_cases hv : v.email ∈ users.map (fun r => r.email)
  · rw [if_pos hv]; exact h
  · rw [if_neg hv]
    apply List.Nodup.append h (List.nodup_singleton _)
    intro e he he1
    rw [List.mem_singleton] at he1
    exact hv (he1 ▸ he)

theorem applyUpserts_concat (vs : List UserRecord) (v : UserRecord) (users : List UserRecord) :
    applyUpserts (vs ++ [v]) users = upsertUser v (applyUpserts vs users) := by
  simp [applyUpserts, List.foldl_append]

theorem uniqueEmails_applyUpserts (vs : List UserRecord) : ∀ users : List UserRecord,
    UniqueEmails users → UniqueEmails (applyUpserts vs users) := by
  induction vs with
  | nil => intro users h; exact h
  | cons v vs ih =>
    intro users h
    exact ih _ (uniqueEmails_upsertUser v users h)

theorem emails_present_applyUpserts (vs : List UserRecord) (users : List UserRecord) :
    (∀ e ∈ users.map (fun r => r.email), e ∈ (applyUpserts vs users).map (fun r => r.email)) ∧
    (∀ v ∈ vs, v.email ∈ (applyUpserts vs users).map (fun r => r.email)) := by
  induction vs using List.reverseRecOn with
  | nil => exact ⟨fun e he => he, fun v hv => by cases hv⟩
  | append_singleton vs v ih =>
    rw [applyUpserts_concat]
    constructor
    · intro e he
      exact (mem_emails_upsertUser _ _ _).mpr (Or.inl (ih.1 e he))
    · intro x hx
      rw [List.mem_append, List.mem_singleton] at hx
      rcases hx with hx | hx
      · exact (mem_emails_upsertUser _ _ _).mpr (Or.inl (ih.2 x hx))
      · exact (mem_emails_upsertUser _ _ _).mpr (Or.inr (by rw [hx]))

theorem lastFor_concat (vs : List UserRecord) (v : UserRecord) (e : String) :
    lastFor (vs ++ [v]) e = if v.email = e then some v else lastFor vs e := by
  unfold lastFor
  rw [List.filter_append]
  by_cases h : v.email = e
  · simp [h, List.filter_cons, List.getLast?_concat]
  · simp [h, List.filter_cons]

theorem holdsValues_applyUpserts (vs : List UserRecord) (users : List UserRecord) :
    ∀ r ∈ applyUpserts vs users, ∀ v, lastFor vs r.email = some v → HoldsValues v r := by
  induction vs using List.reverseRecOn with
  | nil => intro r _ v hv; simp [lastFor] at hv
  | append_singleton vs x ih =>
    intro r hr v hv
    rw [applyUpserts_concat] at hr
    rw [lastFor_concat] at hv
    by_cases hpresent : x.email ∈ (applyUpserts vs users).map (fun r => r.email)
    · rw [upsertUser_present_eq_map x _ hpresent, List.mem_map] at hr
      obtain ⟨r0, hr0, rfl⟩ := hr
      rw [overwrite_email] at hv
      by_cases he : r0.email = x.email
      · rw [if_pos he.symm] at hv
        cases hv
        simp [overwrite, he, HoldsValues]
      · rw [if_neg (fun h => he h.symm)] at hv
        have := ih r0 hr0 v hv
        simpa [overwrite, he] using this
    · rw [upsertUser_absent_eq_append x _ hpresent, List.mem_append, List.mem_singleton] at hr
      rcases hr with hr | rfl
      · have he : x.email ≠ r.email := by
          intro h
          exact hpresent (h ▸ List.mem_map_of_mem _ hr)
        rw [if_neg he] at hv
        exact ih r hr v hv
      · simp at hv
        subst hv
        exact ⟨rfl, rfl, rfl, rfl⟩

theorem applyUpserts_eq_map (vs : List UserRecord) : ∀ users : List UserRecord,
    (∀ v ∈ vs, v.email ∈ users.map (fun r => r.email)) →
    applyUpserts vs users = users.map (overwriteAll vs) := by
  induction vs with
  | nil =>
    intro users _
    show users = users.map id
    rw [List.map_id]
  | cons v vs ih =>
    intro users h
    have hv := h v (List.mem_cons_self _ _)
    have hstep : applyUpserts (v :: vs) users = applyUpserts vs (upsertUser v users) := rfl
    rw [hstep, upsertUser_present_eq_map v users hv, ih]
    · rw [List.map_map]
      rfl
    · intro x hx
      rw [map_email_map_overwrite]
      exact h x (List.mem_cons_of_mem _ hx)

theorem overwriteAll_concat (vs : List UserRecord) (v r : UserRecord) :
    overwriteAll (vs ++ [v]) r = overwrite v (overwriteAll vs r) := by
  simp [overwriteAll, List.foldl_append]

theorem overwriteAll_identity (vs : List UserRecord) (r : UserRecord) :
    (overwriteAll vs r).email = r.email ∧ (overwriteAll vs r).user_id = r.user_id ∧
    (overwriteAll vs r).name = r.name := by
  induction vs using List.reverseRecOn with
  | nil => exact ⟨rfl, rfl, rfl⟩
  | append_singleton vs v ih =>
    rw [overwriteAll_concat]
    unfold overwrite
    split
    · exact ih
    · exact ih

theorem overwriteAll_fixed (vs : List UserRecord) (r : UserRecord) :
    (∀ v, lastFor vs r.email = some v → HoldsValues v r) → overwriteAll vs r = r := by
  induction vs using List.reverseRecOn with
  | nil => intro _; rfl
  | append_singleton vs x ih =>
    intro h
    rw [overwriteAll_concat]
    obtain ⟨hemail, hid, hname⟩ := overwriteAll_identity vs r
    by_cases he : x.email = r.email
    · have hx := h x (by rw [lastFor_concat, if_pos he])
      obtain ⟨h1, h2, h3, h4⟩ := hx
      unfold overwrite
      rw [if_pos (by rw [hemail]; exact he.symm)]
      cases r
      simp_all
    · have hfix := ih (fun v hv => h v (by rw [lastFor_concat, if_neg he]; exact hv))
      rw [hfix]
      unfold overwrite
      rw [if_neg (fun h => he h.symm)]

theorem applyUpserts_idempotent (vs : List UserRecord) (users : List UserRecord) :
    applyUpserts vs (applyUpserts vs users) = applyUpserts vs users := by
  rw [applyUpserts_eq_map vs _ (emails_present_applyUpserts vs users).2]
  have hmap : (applyUpserts vs users).map (overwriteAll vs) = (applyUpserts vs users).map id :=
    List.map_congr_left (fun r hr =>
      overwriteAll_fixed vs r (holdsValues_applyUpserts vs users r hr))
  rw [hmap, List.map_id]

theorem ingest_eq_applyUpserts (env : Env) (rows : List CsvRow) (users : List UserRecord) :
    ingest env rows users =
      applyUpserts ((rows.filter hasEmail).map (upsertValues env)) users := by
  simp [ingest, applyUpserts, List.foldl_map]

theorem upsertValues_email_of_hasEmail (env : Env) (row : CsvRow) (h : hasEmail row = true) :
    some (upsertValues env row).email = row.email := by
  unfold hasEmail at h
  cases he : row.email with
  | none => rw [he] at h; simp [truthy] at h
  | some s => simp [upsertValues, he]

theorem lastFor_values (env : Env) (rows : List CsvRow) (e : String) :
    lastFor ((rows.filter hasEmail).map (upsertValues env)) e =
      (lastRowFor rows e).map (upsertValues env) := by
  unfold lastFor lastRowFor
  rw [List.filter_map, List.getLast?_map, List.filter_filter]
  congr 2
  apply List.filter_congr
  intro row _
  by_cases h : hasEmail row = true
  · have hemail := upsertValues_email_of_hasEmail env row h
    simp only [Function.comp, h, Bool.and_true, Bool.true_and]
    rw [← hemail]
    simp
  · have hf : hasEmail row = false := by simpa using h
    simp [hf]

/-- C2: when the database rejects no upsert, the row loop run on a table with
one record per email succeeds with count M, and run again with the same CSV on
the resulting table it succeeds with count M and leaves that table exactly as
it was (so every `user_id` and `name` is unchanged); the table still has one
record per email, holds a record for the email of each of the M rows, and each
record whose email occurs in the CSV holds the values of the last CSV row with
that email: the numbers of its `monthly_income`, `credit_score` and `age` (0 for
a missing or non-numeric field) and its `employment_status` (null for a missing
or empty one). -/
theorem processRows_idempotent (env : Env) (rows : List CsvRow) (users : List UserRecord)
    (hunique : UniqueEmails users)
    (hqueries : ∀ i, i < (rows.filter hasEmail).length → env.queryFault i = none) :
    ∃ table : List UserRecord,
      processRows env rows 0 ⟨users, []⟩ =
        (.ok (rows.filter hasEmail).length, ⟨table, upsertEffects env rows⟩) ∧
      processRows env rows 0 ⟨table, []⟩ =
        (.ok (rows.filter hasEmail).length, ⟨table, upsertEffects env rows⟩) ∧
      UniqueEmails table ∧
      (∀ row ∈ rows, hasEmail row = true → ∃ r ∈ table, some r.email = row.email) ∧
      (∀ r ∈ table, ∀ row, lastRowFor rows r.email = some row →
        CoercedFrom env row.monthly_income r.monthly_income ∧
        CoercedFrom env row.credit_score r.credit_score ∧
        NullIfEmpty row.employment_status r.employment_status ∧
        CoercedFrom env row.age r.age) := by
  have hfirst := processRows_ok env rows 0 ⟨users, []⟩ (by simpa [queriesIn] using hqueries)
  have hsecond := processRows_ok env rows 0 ⟨ingest env rows users, []⟩
    (by simpa [queriesIn] using hqueries)
  have hidem : ingest env rows (ingest env rows users) = ingest env rows users := by
    rw [ingest_eq_applyUpserts, ingest_eq_applyUpserts, applyUpserts_idempotent]
  refine ⟨ingest env rows users, ?_, ?_, ?_, ?_, ?_⟩
  · simpa using hfirst
  · rw [hsecond]
    simp [hidem]
  · rw [ingest_eq_applyUpserts]
    exact uniqueEmails_applyUpserts _ _ hunique
  · intro row hrow hemail
    have hmem := (emails_present_applyUpserts ((rows.filter hasEmail).map (upsertValues env))
      users).2 (upsertValues env row)
      (List.mem_map_of_mem _ (List.mem_filter.mpr ⟨hrow, hemail⟩))
    rw [← ingest_eq_applyUpserts, List.mem_map] at hmem
    obtain ⟨r, hr, he⟩ := hmem
    exact ⟨r, hr, by rw [he]; exact upsertValues_email_of_hasEmail env row hemail⟩
  · intro r hr row hlast
    rw [ingest_eq_applyUpserts] at hr
    obtain ⟨h1, h2, h3, h4⟩ := holdsValues_applyUpserts _ users r hr (upsertValues env row)
      (by rw [lastFor_values, hlast]; rfl)
    rw [h1, h2, h3, h4]
    exact ⟨orZero_coercedFrom env _, orZero_coercedFrom env _, orNull_nullIfEmpty _,
      orZero_coercedFrom env _⟩

/-- An instance: a CSV in which the same email occurs twice; the record of that
email ends with the values of the second row, after one run and after two. -/
theorem processRows_idempotent_witness :
    UniqueEmails [carlRecord] ∧
    (processRows quietEnv repeatedRows 0 ⟨[carlRecord], []⟩).2.users =
      [carlRecord,
       { user_id := none, name := "User", email := "ann@example.com",
         monthly_income := .fin 700, credit_score := .fin 0,
         employment_status := some "retired", age := .fin 0 }] ∧
    (processRows quietEnv repeatedRows 0
      ⟨(processRows quietEnv repeatedRows 0 ⟨[carlRecord], []⟩).2.users, []⟩).2.users =
      [carlRecord,
       { user_id := none, name := "User", email := "ann@example.com",
         monthly_income := .fin 700, credit_score := .fin 0,
         employment_status := some "retired", age := .fin 0 }] ∧
    (∃ table : List UserRecord,
      processRows quietEnv repeatedRows 0 ⟨[carlRecord], []⟩ =
        (.ok (repeatedRows.filter hasEmail).length, ⟨table, upsertEffects quietEnv repeatedRows⟩) ∧
      processRows quietEnv repeatedRows 0 ⟨table, []⟩ =
        (.ok (repeatedRows.filter hasEmail).length, ⟨table, upsertEffects quietEnv repeatedRows⟩) ∧
      UniqueEmails table ∧
      (∀ row ∈ repeatedRows, hasEmail row = true → ∃ r ∈ table, some r.email = row.email) ∧
      (∀ r ∈ table, ∀ row, lastRowFor repeatedRows r.email = some row →
        CoercedFrom quietEnv row.monthly_income r.monthly_income ∧
        CoercedFrom quietEnv row.credit_score r.credit_score ∧
        NullIfEmpty row.employment_status r.employment_status ∧
        CoercedFrom quietEnv row.age r.age)) :=
  ⟨by decide, by decide, by decide,
    processRows_idempotent quietEnv repeatedRows [carlRecord] (by decide) (fun _ _ => rfl)⟩

end LoanEngine
